import Mathlib

/-!
Verification development for the network-operator reconciliation engine.

The development embeds, as Lean functions, the state manager
(pkg/state/manager.go: stateManager.SyncState, stateManager.GetWatchSources),
the CNI-plugins state Sync control flow (stateCNIPlugins.Sync in the same
file), and the manifest renderer contract (RenderObjects).  Go errors are
modelled as Option String / Except String values; Go maps are modelled as
association lists whose content is proved independent of iteration order.
-/

/-- Status of a single State.Sync invocation.  Modelled from the spec:
the Go type SyncState and its constants are declared outside the provided
sources; the spec fixes exactly three values, Ready, NotReady and Error,
and manager.go uses exactly these three constants. -/
inductive SyncState where
  | SyncStateReady
  | SyncStateNotReady
  | SyncStateError
deriving DecidableEq, Repr

open SyncState

/-- Result of a single State.Sync invocation, as recorded by the manager:
state name, status, and optional error information. -/
structure Result where
  StateName : String
  Status : SyncState
  ErrInfo : Option String
deriving DecidableEq, Repr

/-- Results of a collection of State.Sync invocations; Status is the global
status of all states. -/
structure Results where
  Status : SyncState
  StatesStatus : List Result
deriving DecidableEq, Repr

/-- A watch-source kind descriptor (source.Kind).  Only its identity matters
to the manager, which never inspects it. -/
structure Kind where
  typeName : String
deriving DecidableEq, Repr

/-- One configured State, as seen by the manager for a single
SyncState invocation with fixed customResource and infoCatalog: its static
name and description, the (status, error) pair its Sync returns on this
invocation, and the watch-source map it declares, modelled as an
association list keyed by kind name. -/
structure State where
  name : String
  description : String
  syncStatus : SyncState
  syncErr : Option String
  watchSources : List (String × Kind)
deriving DecidableEq, Repr

/-- The loop body of stateManager.SyncState: for each state in order, invoke
Sync, append a Result, and accumulate the statesReady flag, which is cleared
when a state reports NotReady or Error.  Returns the result list, the trace
of Sync invocations (state names, in invocation order), and statesReady. -/
def stateManager.syncStates : List State → List Result × List String × Bool
  | [] => ([], [], true)
  | state :: rest =>
    let result : Result :=
      { StateName := state.name, Status := state.syncStatus, ErrInfo := state.syncErr }
    let r := stateManager.syncStates rest
    (result :: r.1,
     state.name :: r.2.1,
     (!(result.Status == SyncStateNotReady || result.Status == SyncStateError)) && r.2.2)

/-- stateManager.SyncState: invoke Sync on every configured state in order;
the global Status starts as SyncStateNotReady and becomes SyncStateReady
exactly when no state reported NotReady or Error. -/
def stateManager.SyncState (states : List State) : Results :=
  { Status :=
      if (stateManager.syncStates states).2.2 then SyncStateReady else SyncStateNotReady
    StatesStatus := (stateManager.syncStates states).1 }

/-- Trace of Sync invocations performed by one stateManager.SyncState call:
the names of the states whose Sync was invoked, in invocation order. -/
def stateManager.syncTrace (states : List State) : List String :=
  (stateManager.syncStates states).2.1

theorem syncStates_ready_iff (states : List State) :
    (stateManager.syncStates states).2.2 = true ↔
      ∀ s ∈ states, s.syncStatus = SyncStateReady := by
  induction states with
  | nil => simp [stateManager.syncStates]
  | cons s rest ih =>
    simp only [stateManager.syncStates, Bool.and_eq_true, Bool.not_eq_true',
      Bool.or_eq_false_iff, beq_eq_false_iff_ne, ne_eq, List.mem_cons, ih,
      forall_eq_or_imp]
    constructor
    · rintro ⟨⟨h1, h2⟩, h3⟩
      refine ⟨?_, h3⟩
      cases h : s.syncStatus <;> simp_all
    · rintro ⟨h1, h2⟩
      exact ⟨by simp [h1], h2⟩

theorem syncStates_results (states : List State) :
    (stateManager.syncStates states).1 =
      states.map (fun s =>
        { StateName := s.name, Status := s.syncStatus, ErrInfo := s.syncErr }) := by
  induction states with
  | nil => rfl
  | cons s rest ih => simp [stateManager.syncStates, ih]

theorem syncStates_trace (states : List State) :
    (stateManager.syncStates states).2.1 = states.map State.name := by
  induction states with
  | nil => rfl
  | cons s rest ih => simp [stateManager.syncStates, ih]

/-- Claim C1: stateManager.SyncState returns a Results whose aggregate Status
is SyncStateReady if and only if every configured state reported
SyncStateReady from its Sync; and whenever some state reported
SyncStateNotReady or SyncStateError, the aggregate Status is
SyncStateNotReady. -/
theorem stateManager_SyncState_ready_iff (states : List State) :
    ((stateManager.SyncState states).Status = SyncStateReady ↔
      ∀ s ∈ states, s.syncStatus = SyncStateReady) ∧
    ((∃ s ∈ states, s.syncStatus = SyncStateNotReady ∨ s.syncStatus = SyncStateError) →
      (stateManager.SyncState states).Status = SyncStateNotReady) := by
  have hstat : (stateManager.SyncState states).Status =
      if (stateManager.syncStates states).2.2 then SyncStateReady else SyncStateNotReady := rfl
  constructor
  · rw [hstat]
    by_cases hb : (stateManager.syncStates states).2.2 = true
    · simp only [hb, if_true]
      exact iff_of_true trivial ((syncStates_ready_iff states).mp hb)
    · simp only [Bool.not_eq_true] at hb
      simp only [hb, if_false]
      constructor
      · intro h; cases h
      · intro hall
        have := (syncStates_ready_iff states).mpr hall
        rw [this] at hb; cases hb
  · rintro ⟨s, hs, hbad⟩
    rw [hstat]
    have hnotall : ¬ ∀ t ∈ states, t.syncStatus = SyncStateReady := by
      intro hall
      have := hall s hs
      rcases hbad with h | h <;> rw [this] at h <;> cases h
    have hb : (stateManager.syncStates states).2.2 = false := by
      by_cases hb : (stateManager.syncStates states).2.2 = true
      · exact absurd ((syncStates_ready_iff states).mp hb) hnotall
      · simpa using hb
    simp [hb]

def stateReadyA : State :=
  { name := "state-a", description := "first state", syncStatus := SyncStateReady,
    syncErr := none, watchSources := [] }

def stateErrorB : State :=
  { name := "state-b", description := "second state", syncStatus := SyncStateError,
    syncErr := some "sync failed", watchSources := [] }

/-- Witness for claim C1: with one Ready state and one Error state, the
aggregate status is NotReady. -/
theorem stateManager_SyncState_ready_iff_witness :
    (stateManager.SyncState [stateReadyA, stateErrorB]).Status = SyncStateNotReady :=
  (stateManager_SyncState_ready_iff [stateReadyA, stateErrorB]).2
    ⟨stateErrorB, by simp, Or.inr rfl⟩

/-- Claim C2: stateManager.SyncState invokes Sync on each configured state
exactly once in the configured order (the invocation trace is exactly the
list of configured state names, in order), the returned Results contains one
Result per configured state in that same order carrying that state's name,
status and error, and if any state reports SyncStateError the global status
is SyncStateNotReady. -/
theorem stateManager_SyncState_per_state_results (states : List State) :
    stateManager.syncTrace states = states.map State.name ∧
    (stateManager.SyncState states).StatesStatus =
      states.map (fun s =>
        { StateName := s.name, Status := s.syncStatus, ErrInfo := s.syncErr }) ∧
    ((∃ s ∈ states, s.syncStatus = SyncStateError) →
      (stateManager.SyncState states).Status = SyncStateNotReady) := by
  refine ⟨syncStates_trace states, syncStates_results states, ?_⟩
  rintro ⟨s, hs, herr⟩
  exact (stateManager_SyncState_ready_iff states).2 ⟨s, hs, Or.inr herr⟩

def stateNotReadyC : State :=
  { name := "state-c", description := "third state", syncStatus := SyncStateNotReady,
    syncErr := none, watchSources := [] }

def stateErrorD : State :=
  { name := "state-d", description := "fourth state", syncStatus := SyncStateError,
    syncErr := some "boom", watchSources := [] }

/-- Witness for claim C2: with a NotReady state followed by an Error state,
the trace lists both states in order, the Results lists both outcomes in
order, and the global status is NotReady. -/
theorem stateManager_SyncState_per_state_results_witness :
    stateManager.syncTrace [stateNotReadyC, stateErrorD] = ["state-c", "state-d"] ∧
    (stateManager.SyncState [stateNotReadyC, stateErrorD]).StatesStatus =
      [{ StateName := "state-c", Status := SyncStateNotReady, ErrInfo := none },
       { StateName := "state-d", Status := SyncStateError, ErrInfo := some "boom" }] ∧
    (stateManager.SyncState [stateNotReadyC, stateErrorD]).Status = SyncStateNotReady := by
  have h := stateManager_SyncState_per_state_results [stateNotReadyC, stateErrorD]
  refine ⟨?_, ?_, h.2.2 ⟨stateErrorD, by simp, rfl⟩⟩
  · rw [h.1]; rfl
  · rw [h.2.1]; rfl

/-- Lookup in an association list keyed by kind name; models indexing the Go
map kindMap. -/
def lookupKind : List (String × Kind) → String → Option Kind
  | [], _ => none
  | nk :: rest, name => if nk.1 = name then some nk.2 else lookupKind rest name

/-- Inner loop of stateManager.GetWatchSources: append one state's declared
watch sources to kindMap, inserting a kind only when its name is not already
present. -/
def addToKindMap : List (String × Kind) → List (String × Kind) → List (String × Kind)
  | kindMap, [] => kindMap
  | kindMap, nk :: wr =>
    addToKindMap
      (match lookupKind kindMap nk.1 with
       | some _ => kindMap
       | none => kindMap ++ [nk]) wr

/-- Outer loop of stateManager.GetWatchSources: fold every configured state's
watch sources into kindMap, in configured order. -/
def buildKindMap : List (String × Kind) → List State → List (String × Kind)
  | kindMap, [] => kindMap
  | kindMap, s :: rest => buildKindMap (addToKindMap kindMap s.watchSources) rest

/-- stateManager.GetWatchSources: the kinds collected in kindMap.  The Go code
emits them in map-iteration order; every property proved below concerns only
the content of kindMap and is therefore independent of that order. -/
def stateManager.GetWatchSources (states : List State) : List Kind :=
  (buildKindMap [] states).map Prod.snd

/-- The kind declared for a name by the earliest state, in configured order,
that declares this name (scanning each state's declarations left to right). -/
def firstDeclaredKind : List State → String → Option Kind
  | [], _ => none
  | s :: rest, name =>
    match lookupKind s.watchSources name with
    | some k => some k
    | none => firstDeclaredKind rest name

theorem lookupKind_eq_none_iff (l : List (String × Kind)) (name : String) :
    lookupKind l name = none ↔ name ∉ l.map Prod.fst := by
  induction l with
  | nil => simp [lookupKind]
  | cons nk rest ih =>
    by_cases h : nk.1 = name
    · simp [lookupKind, h]
    · rw [List.map_cons]
      simp only [lookupKind, if_neg h, List.mem_cons, not_or, ih]
      exact ⟨fun hnot => ⟨fun he => h he.symm, hnot⟩, fun hp => hp.2⟩

theorem lookupKind_append (a b : List (String × Kind)) (name : String) :
    lookupKind (a ++ b) name =
      match lookupKind a name with
      | some k => some k
      | none => lookupKind b name := by
  induction a with
  | nil => cases h : lookupKind b name <;> simp [lookupKind, h]
  | cons nk rest ih =>
    by_cases h : nk.1 = name
    · simp [lookupKind, h]
    · simp [lookupKind, h, ih]

theorem lookupKind_addToKindMap (wr m : List (String × Kind)) (name : String) :
    lookupKind (addToKindMap m wr) name =
      match lookupKind m name with
      | some k => some k
      | none => lookupKind wr name := by
  induction wr generalizing m with
  | nil => cases h : lookupKind m name <;> simp [addToKindMap, lookupKind, h]
  | cons nk wr ih =>
    cases hA : lookupKind m nk.1 with
    | some k0 =>
      have hstep : addToKindMap m (nk :: wr) = addToKindMap m wr := by
        simp [addToKindMap, hA]
      rw [hstep, ih]
      cases hm : lookupKind m name with
      | some k => rfl
      | none =>
        have hne : nk.1 ≠ name := by
          intro he; rw [he, hm] at hA; cases hA
        simp [lookupKind, hne]
    | none =>
      have hstep : addToKindMap m (nk :: wr) = addToKindMap (m ++ [nk]) wr := by
        simp [addToKindMap, hA]
      rw [hstep, ih, lookupKind_append]
      cases hm : lookupKind m name with
      | some k => rfl
      | none =>
        by_cases h : nk.1 = name
        · simp [lookupKind, h]
        · simp [lookupKind, h]

theorem addToKindMap_fst_nodup (wr m : List (String × Kind))
    (hm : (m.map Prod.fst).Nodup) : ((addToKindMap m wr).map Prod.fst).Nodup := by
  induction wr generalizing m with
  | nil => simpa [addToKindMap] using hm
  | cons nk wr ih =>
    cases hA : lookupKind m nk.1 with
    | some k0 =>
      have hstep : addToKindMap m (nk :: wr) = addToKindMap m wr := by
        simp [addToKindMap, hA]
      rw [hstep]; exact ih m hm
    | none =>
      have hstep : addToKindMap m (nk :: wr) = addToKindMap (m ++ [nk]) wr := by
        simp [addToKindMap, hA]
      rw [hstep]
      refine ih (m ++ [nk]) ?_
      have hnotin : nk.1 ∉ m.map Prod.fst := (lookupKind_eq_none_iff m nk.1).mp hA
      simp [List.nodup_append, hm, hnotin]

theorem mem_iff_lookupKind (l : List (String × Kind)) (name : String) (k : Kind)
    (hl : (l.map Prod.fst).Nodup) :
    (name, k) ∈ l ↔ lookupKind l name = some k := by
  induction l with
  | nil => simp [lookupKind]
  | cons nk rest ih =>
    simp only [List.map_cons, List.nodup_cons] at hl
    by_cases h : nk.1 = name
    · subst h
      simp only [lookupKind, if_pos rfl, List.mem_cons]
      constructor
      · rintro (he | hmem)
        · rw [← he]; simp
        · exact absurd (by simpa using List.mem_map_of_mem Prod.fst hmem) hl.1
      · intro he
        left
        cases nk
        simp at he
        simp [he]
    · simp only [lookupKind, if_neg h, List.mem_cons]
      rw [← ih hl.2]
      constructor
      · rintro (he | hmem)
        · cases nk; cases he; simp at h
        · exact hmem
      · exact fun hmem => Or.inr hmem

theorem lookupKind_buildKindMap (states : List State) (m : List (String × Kind))
    (name : String) :
    lookupKind (buildKindMap m states) name =
      match lookupKind m name with
      | some k => some k
      | none => firstDeclaredKind states name := by
  induction states generalizing m with
  | nil => cases h : lookupKind m name <;> simp [buildKindMap, firstDeclaredKind, h]
  | cons s rest ih =>
    have hstep : buildKindMap m (s :: rest) = buildKindMap (addToKindMap m s.watchSources) rest :=
      rfl
    rw [hstep, ih, lookupKind_addToKindMap]
    cases hm : lookupKind m name with
    | some k => rfl
    | none =>
      cases hw : lookupKind s.watchSources name <;> simp [firstDeclaredKind, hw]

theorem buildKindMap_fst_nodup (states : List State) :
    ((buildKindMap [] states).map Prod.fst).Nodup := by
  suffices h : ∀ m : List (String × Kind), (m.map Prod.fst).Nodup →
      ((buildKindMap m states).map Prod.fst).Nodup from h [] (by simp)
  induction states with
  | nil => intro m hm; simpa [buildKindMap] using hm
  | cons s rest ih =>
    intro m hm
    exact ih (addToKindMap m s.watchSources) (addToKindMap_fst_nodup s.watchSources m hm)

/-- Claim C8: stateManager.GetWatchSources returns the union of the configured
states' declared watch kinds, de-duplicated by kind name: the collected
kindMap has no repeated kind name, and a pair (name, k) is in kindMap exactly
when k is the kind declared for this name by the earliest state, in
configured order, declaring this name; the returned list is the kinds of
kindMap. -/
theorem stateManager_GetWatchSources_dedup_first_wins (states : List State) :
    ((buildKindMap [] states).map Prod.fst).Nodup ∧
    (∀ name k, (name, k) ∈ buildKindMap [] states ↔
      firstDeclaredKind states name = some k) ∧
    stateManager.GetWatchSources states = (buildKindMap [] states).map Prod.snd := by
  refine ⟨buildKindMap_fst_nodup states, ?_, rfl⟩
  intro name k
  rw [mem_iff_lookupKind _ name k (buildKindMap_fst_nodup states),
    lookupKind_buildKindMap states [] name]
  simp [lookupKind]

/-- Image specification for one sub-component.  The api types are declared
outside the provided sources; the fields are the ones the provided sources
read (Repository, Image, Version). -/
structure ImageSpec where
  Image : String
  Repository : String
  Version : String
deriving DecidableEq, Repr

/-- Secondary-network section of the custom resource spec; only the
CniPlugins sub-section matters to the CNI-plugins state. -/
structure SecondaryNetworkSpec where
  CniPlugins : Option ImageSpec
deriving DecidableEq, Repr

/-- Spec of the NicClusterPolicy custom resource, restricted to the fields
stateCNIPlugins.Sync reads for its enablement decision. -/
structure NicClusterPolicySpec where
  SecondaryNetwork : Option SecondaryNetworkSpec
deriving DecidableEq, Repr

/-- The NicClusterPolicy custom resource. -/
structure NicClusterPolicy where
  Name : String
  Namespace : String
  Spec : NicClusterPolicySpec
deriving DecidableEq, Repr

/-- A static configuration provider (staticconfig.Provider); only its
presence or absence in the info catalog matters to Sync. -/
structure staticconfig.Provider where
  CniBinDirectory : String
deriving DecidableEq, Repr

/-- The info catalog handed to Sync; GetStaticConfigProvider returns nil
when no static configuration provider was registered. -/
structure InfoCatalog where
  staticConfigProvider : Option staticconfig.Provider
deriving DecidableEq, Repr

def InfoCatalog.GetStaticConfigProvider (c : InfoCatalog) : Option staticconfig.Provider :=
  c.staticConfigProvider

/-- A rendered manifest object: a structured document with kind, namespace,
name and arbitrary nested fields, modelled per the spec data model. -/
structure RenderedObject where
  Kind : String
  Namespace : String
  Name : String
  Fields : List (String × String)
deriving DecidableEq, Repr

/-- Operations of the shared state skeleton and renderer that one
stateCNIPlugins.Sync invocation can perform, recorded as a trace in
invocation order. -/
inductive SkelOp where
  | renderManifests
  | createOrUpdateObjs
  | handleStaleStateObjects
  | stateObjectsDeletion
  | getSyncStateEval
deriving DecidableEq, Repr

/-- Outcomes of the shared skeleton operations for the one Sync invocation
under consideration.  The stateSkel implementation is declared outside the
provided sources, so its operations enter the model as the results they
return: the renderer result, the create-or-update error (none on success),
the stale-object handling result (ok true when stale deletions are still
pending), the status-evaluation result, and the outcome of deleting all
previously tracked state objects (whether deletions are still pending, and
an optional deletion error). -/
structure StateSkelEnv where
  renderResult : Except String (List RenderedObject)
  createOrUpdateErr : Option String
  staleHandling : Except String Bool
  syncStateEval : Except String SyncState
  objectsDeletionPending : Bool
  objectsDeletionErr : Option String
deriving Repr

/-- Go errors.Wrap: wrap an error with a message. -/
def wrapErr (msg e : String) : String := msg ++ ": " ++ e

/-- Modelled from the spec: stateSkel.handleStateObjectsDeletion is not under
the provided sources.  Per the spec, when the sub-system is disabled the
state converges toward absence: it triggers deletion of every previously
tracked object and reports based on whether that cleanup is complete — an
error during deletion surfaces as SyncStateError, pending deletions are
reported as SyncStateNotReady, and once cleanup is complete the state
reports based on the now-empty desired set, for which the skeleton returns
SyncStateNotReady. -/
def stateSkel.handleStateObjectsDeletion (env : StateSkelEnv) : SyncState × Option String :=
  match env.objectsDeletionErr with
  | some e => (SyncStateError, some e)
  | none =>
    if env.objectsDeletionPending then (SyncStateNotReady, none)
    else (SyncStateNotReady, none)

/-- stateCNIPlugins.getManifestObjects: render the manifest objects for the
current custom resource, wrapping a renderer failure. -/
def stateCNIPlugins.getManifestObjects (env : StateSkelEnv) :
    Except String (List RenderedObject) :=
  match env.renderResult with
  | Except.error e => Except.error (wrapErr "failed to render objects" e)
  | Except.ok objs => Except.ok objs

/-- stateCNIPlugins.Sync: the convergence step of the CNI-plugins state,
returning the (status, error) pair together with the trace of skeleton
operations performed, in order.  Mirrors the control flow of the source:
when the sub-system is disabled in the custom resource, delete previously
created state objects; otherwise require a static config provider, render
the manifest objects, treat an empty desired set as NotReady, create or
update the objects, handle stale objects (returning NotReady while
deletions are pending), and finally evaluate the objects status. -/
def stateCNIPlugins.Sync (env : StateSkelEnv) (cr : NicClusterPolicy)
    (infoCatalog : InfoCatalog) : (SyncState × Option String) × List SkelOp :=
  match cr.Spec.SecondaryNetwork with
  | none => (stateSkel.handleStateObjectsDeletion env, [SkelOp.stateObjectsDeletion])
  | some sn =>
    match sn.CniPlugins with
    | none => (stateSkel.handleStateObjectsDeletion env, [SkelOp.stateObjectsDeletion])
    | some _ =>
      match infoCatalog.GetStaticConfigProvider with
      | none =>
        ((SyncStateError, some "unexpected state, catalog does not provide static info"), [])
      | some _ =>
        match stateCNIPlugins.getManifestObjects env with
        | Except.error e =>
          ((SyncStateNotReady, some (wrapErr "failed to create k8s objects from manifest" e)),
           [SkelOp.renderManifests])
        | Except.ok objs =>
          if objs.length = 0 then
            ((SyncStateNotReady, none), [SkelOp.renderManifests])
          else
            match env.createOrUpdateErr with
            | some e =>
              ((SyncStateNotReady, some (wrapErr "failed to create/update objects" e)),
               [SkelOp.renderManifests, SkelOp.createOrUpdateObjs])
            | none =>
              match env.staleHandling with
              | Except.error e =>
                ((SyncStateNotReady, some (wrapErr "failed to handle state stale objects" e)),
                 [SkelOp.renderManifests, SkelOp.createOrUpdateObjs,
                  SkelOp.handleStaleStateObjects])
              | Except.ok true =>
                ((SyncStateNotReady, none),
                 [SkelOp.renderManifests, SkelOp.createOrUpdateObjs,
                  SkelOp.handleStaleStateObjects])
              | Except.ok false =>
                match env.syncStateEval with
                | Except.error e =>
                  ((SyncStateNotReady, some (wrapErr "failed to get sync state" e)),
                   [SkelOp.renderManifests, SkelOp.createOrUpdateObjs,
                    SkelOp.handleStaleStateObjects, SkelOp.getSyncStateEval])
                | Except.ok ss =>
                  ((ss, none),
                   [SkelOp.renderManifests, SkelOp.createOrUpdateObjs,
                    SkelOp.handleStaleStateObjects, SkelOp.getSyncStateEval])

/-- Claim C5: whenever a Sync invocation performs stale-object handling and
that handling reports deletions still pending (result ok true), Sync returns
SyncStateNotReady with no error for this cycle and does not proceed to
status evaluation of the desired objects. -/
theorem stateCNIPlugins_Sync_stale_pending_not_ready
    (env : StateSkelEnv) (cr : NicClusterPolicy) (infoCatalog : InfoCatalog)
    (hmem : SkelOp.handleStaleStateObjects ∈ (stateCNIPlugins.Sync env cr infoCatalog).2)
    (hstale : env.staleHandling = Except.ok true) :
    (stateCNIPlugins.Sync env cr infoCatalog).1 = (SyncStateNotReady, none) ∧
    SkelOp.getSyncStateEval ∉ (stateCNIPlugins.Sync env cr infoCatalog).2 := by
  rcases hsn : cr.Spec.SecondaryNetwork with _ | sn
  · simp [stateCNIPlugins.Sync, hsn] at hmem
  · rcases hcni : sn.CniPlugins with _ | cni
    · simp [stateCNIPlugins.Sync, hsn, hcni] at hmem
    · rcases hprov : infoCatalog.GetStaticConfigProvider with _ | prov
      · simp [stateCNIPlugins.Sync, hsn, hcni, hprov] at hmem
      · rcases hrender : stateCNIPlugins.getManifestObjects env with e | objs
        · simp [stateCNIPlugins.Sync, hsn, hcni, hprov, hrender] at hmem
        · by_cases hlen : objs.length = 0
          · simp [stateCNIPlugins.Sync, hsn, hcni, hprov, hrender, hlen] at hmem
          · rcases hcou : env.createOrUpdateErr with _ | e
            · constructor <;>
                simp [stateCNIPlugins.Sync, hsn, hcni, hprov, hrender, hlen, hcou, hstale]
            · simp [stateCNIPlugins.Sync, hsn, hcni, hprov, hrender, hlen, hcou] at hmem

/-- A rendered object used by the concrete witnesses. -/
def objDaemonSet : RenderedObject :=
  { Kind := "DaemonSet", Namespace := "nvidia-network-operator",
    Name := "cni-plugins-ds", Fields := [] }

/-- The CNI-plugins image specification used by the concrete witnesses. -/
def cniPluginsImage : ImageSpec :=
  { Image := "plugins", Repository := "nvcr.io/nvidia", Version := "v1" }

/-- A secondary-network section with the CNI-plugins sub-system present. -/
def secondaryNetworkEnabled : SecondaryNetworkSpec :=
  { CniPlugins := some cniPluginsImage }

/-- A custom resource with the secondary-network CNI-plugins sub-system
enabled. -/
def crEnabled : NicClusterPolicy :=
  { Name := "nic-cluster-policy", Namespace := "",
    Spec := { SecondaryNetwork := some secondaryNetworkEnabled } }

/-- A custom resource with the secondary-network sub-system absent. -/
def crDisabled : NicClusterPolicy :=
  { Name := "nic-cluster-policy", Namespace := "",
    Spec := { SecondaryNetwork := none } }

/-- An info catalog providing a static configuration provider. -/
def catalogWithStatic : InfoCatalog :=
  { staticConfigProvider := some { CniBinDirectory := "/opt/cni/bin" } }

/-- An info catalog providing no static configuration provider. -/
def catalogNoStatic : InfoCatalog :=
  { staticConfigProvider := none }

def skelEnvStalePending : StateSkelEnv :=
  { renderResult := Except.ok [objDaemonSet], createOrUpdateErr := none,
    staleHandling := Except.ok true, syncStateEval := Except.ok SyncStateReady,
    objectsDeletionPending := false, objectsDeletionErr := none }

/-- Witness for claim C5: with one rendered object, successful
create-or-update and stale handling reporting pending deletions, Sync is
NotReady without error and never evaluates object status. -/
theorem stateCNIPlugins_Sync_stale_pending_not_ready_witness :
    (stateCNIPlugins.Sync skelEnvStalePending crEnabled catalogWithStatic).1 =
      (SyncStateNotReady, none) ∧
    SkelOp.getSyncStateEval ∉
      (stateCNIPlugins.Sync skelEnvStalePending crEnabled catalogWithStatic).2 :=
  stateCNIPlugins_Sync_stale_pending_not_ready skelEnvStalePending crEnabled
    catalogWithStatic (by decide) rfl

/-- Claim C6: when the custom resource disables the sub-system (no
SecondaryNetwork section, or one without CniPlugins), Sync performs no
rendering and no create-or-update: it only triggers deletion of the
previously created state objects and returns the status computed by
stateSkel.handleStateObjectsDeletion, which reports according to whether
that cleanup is complete. -/
theorem stateCNIPlugins_Sync_disabled_triggers_deletion
    (env : StateSkelEnv) (cr : NicClusterPolicy) (infoCatalog : InfoCatalog)
    (hdis : cr.Spec.SecondaryNetwork = none ∨
      ∃ sn, cr.Spec.SecondaryNetwork = some sn ∧ sn.CniPlugins = none) :
    stateCNIPlugins.Sync env cr infoCatalog =
      (stateSkel.handleStateObjectsDeletion env, [SkelOp.stateObjectsDeletion]) ∧
    SkelOp.renderManifests ∉ (stateCNIPlugins.Sync env cr infoCatalog).2 ∧
    SkelOp.createOrUpdateObjs ∉ (stateCNIPlugins.Sync env cr infoCatalog).2 := by
  rcases hdis with h | ⟨sn, hsn, hcni⟩
  · refine ⟨?_, ?_, ?_⟩ <;> simp [stateCNIPlugins.Sync, h]
  · refine ⟨?_, ?_, ?_⟩ <;> simp [stateCNIPlugins.Sync, hsn, hcni]

def skelEnvDeletionPending : StateSkelEnv :=
  { renderResult := Except.ok [], createOrUpdateErr := none,
    staleHandling := Except.ok false, syncStateEval := Except.ok SyncStateReady,
    objectsDeletionPending := true, objectsDeletionErr := none }

/-- Witness for claim C6: with the sub-system removed from the custom
resource, Sync only triggers state-object deletion and reports the cleanup
status. -/
theorem stateCNIPlugins_Sync_disabled_triggers_deletion_witness :
    stateCNIPlugins.Sync skelEnvDeletionPending crDisabled catalogWithStatic =
      (stateSkel.handleStateObjectsDeletion skelEnvDeletionPending,
       [SkelOp.stateObjectsDeletion]) ∧
    SkelOp.renderManifests ∉
      (stateCNIPlugins.Sync skelEnvDeletionPending crDisabled catalogWithStatic).2 ∧
    SkelOp.createOrUpdateObjs ∉
      (stateCNIPlugins.Sync skelEnvDeletionPending crDisabled catalogWithStatic).2 :=
  stateCNIPlugins_Sync_disabled_triggers_deletion skelEnvDeletionPending crDisabled
    catalogWithStatic (Or.inl rfl)

/-- Claim C7: when the rendered desired set is empty, Sync returns
SyncStateNotReady with no error, forcing at least one more reconciliation
pass. -/
theorem stateCNIPlugins_Sync_empty_desired_not_ready
    (env : StateSkelEnv) (cr : NicClusterPolicy) (infoCatalog : InfoCatalog)
    (sn : SecondaryNetworkSpec) (cni : ImageSpec) (prov : staticconfig.Provider)
    (hsn : cr.Spec.SecondaryNetwork = some sn)
    (hcni : sn.CniPlugins = some cni)
    (hprov : infoCatalog.GetStaticConfigProvider = some prov)
    (hrender : env.renderResult = Except.ok ([] : List RenderedObject)) :
    (stateCNIPlugins.Sync env cr infoCatalog).1 = (SyncStateNotReady, none) := by
  simp [stateCNIPlugins.Sync, stateCNIPlugins.getManifestObjects, hsn, hcni, hprov, hrender]

def skelEnvEmptyRender : StateSkelEnv :=
  { renderResult := Except.ok [], createOrUpdateErr := none,
    staleHandling := Except.ok false, syncStateEval := Except.ok SyncStateReady,
    objectsDeletionPending := false, objectsDeletionErr := none }

/-- Witness for claim C7: an enabled sub-system whose rendering yields zero
objects makes Sync return NotReady without error. -/
theorem stateCNIPlugins_Sync_empty_desired_not_ready_witness :
    (stateCNIPlugins.Sync skelEnvEmptyRender crEnabled catalogWithStatic).1 =
      (SyncStateNotReady, none) :=
  stateCNIPlugins_Sync_empty_desired_not_ready skelEnvEmptyRender crEnabled
    catalogWithStatic secondaryNetworkEnabled cniPluginsImage
    { CniBinDirectory := "/opt/cni/bin" } rfl rfl rfl rfl

/-- Claim C10: with the sub-system enabled but no static configuration
provider in the info catalog, Sync returns SyncStateError together with a
non-nil error and performs no skeleton operation at all (no rendering,
creation, update or deletion). -/
theorem stateCNIPlugins_Sync_no_static_config_error
    (env : StateSkelEnv) (cr : NicClusterPolicy) (infoCatalog : InfoCatalog)
    (sn : SecondaryNetworkSpec) (cni : ImageSpec)
    (hsn : cr.Spec.SecondaryNetwork = some sn)
    (hcni : sn.CniPlugins = some cni)
    (hprov : infoCatalog.GetStaticConfigProvider = none) :
    (stateCNIPlugins.Sync env cr infoCatalog).1.1 = SyncStateError ∧
    (stateCNIPlugins.Sync env cr infoCatalog).1.2 =
      some "unexpected state, catalog does not provide static info" ∧
    (stateCNIPlugins.Sync env cr infoCatalog).2 = [] := by
  refine ⟨?_, ?_, ?_⟩ <;> simp [stateCNIPlugins.Sync, hsn, hcni, hprov]

def skelEnvUnused : StateSkelEnv :=
  { renderResult := Except.ok [objDaemonSet], createOrUpdateErr := none,
    staleHandling := Except.ok false, syncStateEval := Except.ok SyncStateReady,
    objectsDeletionPending := false, objectsDeletionErr := none }

/-- Witness for claim C10: an enabled sub-system with a catalog missing the
static configuration provider yields status Error, a non-nil error and an
empty operation trace. -/
theorem stateCNIPlugins_Sync_no_static_config_error_witness :
    (stateCNIPlugins.Sync skelEnvUnused crEnabled catalogNoStatic).1.1 = SyncStateError ∧
    (stateCNIPlugins.Sync skelEnvUnused crEnabled catalogNoStatic).1.2 =
      some "unexpected state, catalog does not provide static info" ∧
    (stateCNIPlugins.Sync skelEnvUnused crEnabled catalogNoStatic).2 = [] :=
  stateCNIPlugins_Sync_no_static_config_error skelEnvUnused crEnabled catalogNoStatic
    secondaryNetworkEnabled cniPluginsImage rfl rfl rfl

/-- Serialization dialects the renderer supports; the parser for a document
is selected by file suffix, never by content sniffing. -/
inductive Encoding where
  | yamlEncoding
  | jsonEncoding
deriving DecidableEq, Repr

/-- The file suffixes of template documents the renderer accepts. -/
def ManifestFileSuffix : List String := ["yaml", "yml", "json"]

/-- Suffix test on paths, computed structurally on the character lists. -/
def strEndsWith (s suffix : String) : Bool :=
  List.isSuffixOf suffix.data s.data

/-- Parser selection by file suffix: .yaml and .yml documents use the yaml
parser, .json documents the json parser, anything else is unsupported. -/
def suffixEncoding (path : String) : Option Encoding :=
  if strEndsWith path ".yaml" || strEndsWith path ".yml" then some Encoding.yamlEncoding
  else if strEndsWith path ".json" then some Encoding.jsonEncoding
  else none

/-- The binding context handed to one RenderObjects call: the custom-resource
fields relevant to one state, modelled as a value tree in the form of an
association list. -/
structure TemplatingData where
  Data : List (String × String)
deriving DecidableEq, Repr

/-- Error taxonomy of the renderer: missing template document, template
directives referencing absent binding-context fields or failing coercion,
document malformed once rendered, or an unsupported file suffix. -/
inductive RenderError where
  | NotFound (path : String)
  | TemplateEvaluation (path : String)
  | ParseFailure (path : String)
  | UnsupportedSuffix (path : String)
deriving DecidableEq, Repr

/-- The collaborators of one RenderObjects call: the filesystem content of
each template path (none when the file does not exist), the template engine
(none when evaluation fails, e.g. a referenced binding field is absent), and
the per-encoding document parser (none when the rendered text is malformed).
The renderer is modelled relative to these because it performs no other
input or output. -/
structure RenderEnv where
  fileContent : String → Option String
  executeTemplate : String → TemplatingData → Option String
  parseDocument : Encoding → String → Option RenderedObject

/-- Modelled from the spec: the renderer implementation (pkg/render) is not
under the provided sources, only its tests; this follows the spec contract.
Rendering one template document: read the file (missing file is NotFound),
evaluate the template directives against the binding context (failure is
TemplateEvaluation), select the parser by file suffix, and parse the
rendered text into a structured object (failure is ParseFailure). -/
def renderFile (env : RenderEnv) (data : TemplatingData) (path : String) :
    Except RenderError RenderedObject :=
  match env.fileContent path with
  | none => Except.error (RenderError.NotFound path)
  | some tpl =>
    match env.executeTemplate tpl data with
    | none => Except.error (RenderError.TemplateEvaluation path)
    | some rendered =>
      match suffixEncoding path with
      | none => Except.error (RenderError.UnsupportedSuffix path)
      | some enc =>
        match env.parseDocument enc rendered with
        | none => Except.error (RenderError.ParseFailure path)
        | some obj => Except.ok obj

/-- Modelled from the spec: RenderObjects renders the pre-resolved template
document list against one binding context, document by document in list
order, all or nothing: the first failing document fails the whole call and
no object sequence is returned; an empty document list yields the empty
sequence with no error. -/
def RenderObjects (env : RenderEnv) (files : List String) (data : TemplatingData) :
    Except RenderError (List RenderedObject) :=
  match files with
  | [] => Except.ok []
  | f :: rest =>
    match renderFile env data f with
    | Except.error e => Except.error e
    | Except.ok obj =>
      match RenderObjects env rest data with
      | Except.error e => Except.error e
      | Except.ok objs => Except.ok (obj :: objs)

/-- Claim C9: RenderObjects on the empty template document list returns the
empty object sequence and no error. -/
theorem RenderObjects_empty (env : RenderEnv) (data : TemplatingData) :
    RenderObjects env [] data = Except.ok [] := rfl

/-- Claim C3: for a template set whose N document paths are in ascending
lexicographic order, with any mix of supported file suffixes, when every
document renders successfully RenderObjects returns exactly the N rendered
objects of those documents, in that same ascending path order (the output
is the image of the path list, in list order). -/
theorem RenderObjects_ordered (env : RenderEnv) (data : TemplatingData)
    (files : List String) (g : String → RenderedObject)
    (hsorted : List.Pairwise (fun a b => a < b) files)
    (hsuffix : ∀ p ∈ files, (suffixEncoding p).isSome)
    (hg : ∀ p ∈ files, renderFile env data p = Except.ok (g p)) :
    RenderObjects env files data = Except.ok (files.map g) ∧
    (files.map g).length = files.length := by
  refine ⟨?_, List.length_map files g⟩
  induction files with
  | nil => rfl
  | cons f rest ih =>
    have hf := hg f (List.mem_cons_self f rest)
    have hrest : RenderObjects env rest data = Except.ok (rest.map g) :=
      ih (List.Pairwise.sublist (List.sublist_cons_self f rest) hsorted)
        (fun p hp => hsuffix p (List.mem_cons_of_mem f hp))
        (fun p hp => hg p (List.mem_cons_of_mem f hp))
    simp [RenderObjects, hf, hrest]

/-- Claim C4: whenever any document of the input list fails to render
(missing file, template evaluation against an incomplete binding context, or
a parse failure), RenderObjects returns an error and no object sequence at
all — the result is an error value carrying no objects, even when documents
earlier in the order rendered successfully. -/
theorem RenderObjects_all_or_nothing (env : RenderEnv) (data : TemplatingData)
    (files : List String)
    (hbad : ∃ p ∈ files, ∃ e, renderFile env data p = Except.error e) :
    ∃ e, RenderObjects env files data = Except.error e := by
  induction files with
  | nil =>
    rcases hbad with ⟨p, hp, _⟩
    cases hp
  | cons f rest ih =>
    rcases hbad with ⟨p, hp, e, hpe⟩
    rcases List.mem_cons.mp hp with he | hmem
    · subst he
      exact ⟨e, by simp [RenderObjects, hpe]⟩
    · cases hf : renderFile env data f with
      | error e0 => exact ⟨e0, by simp [RenderObjects, hf]⟩
      | ok obj =>
        rcases ih ⟨p, hmem, e, hpe⟩ with ⟨e1, he1⟩
        exact ⟨e1, by simp [RenderObjects, hf, he1]⟩

/-- A rendering environment in which every file exists, template evaluation
echoes the file content, and parsing always succeeds, naming the object
after the rendered text. -/
def renderEnvOk : RenderEnv :=
  { fileContent := fun p => some p,
    executeTemplate := fun tpl _ => some tpl,
    parseDocument := fun _ rendered =>
      some { Kind := "TestObj", Namespace := "default", Name := rendered, Fields := [] } }

/-- Three template documents with mixed supported suffixes, in ascending
lexicographic path order. -/
def filesSortedMixed : List String :=
  ["testdata/manifests/a.yaml", "testdata/manifests/b.json", "testdata/manifests/c.yml"]

def renderedOf : String → RenderedObject := fun p =>
  { Kind := "TestObj", Namespace := "default", Name := p, Fields := [] }

def bindingFoo : TemplatingData := { Data := [("Foo", "foo")] }

/-- Witness for claim C3: the three mixed-suffix documents render to exactly
three objects, in the same ascending path order. -/
theorem RenderObjects_ordered_witness :
    RenderObjects renderEnvOk filesSortedMixed bindingFoo =
      Except.ok (filesSortedMixed.map renderedOf) ∧
    (filesSortedMixed.map renderedOf).length = filesSortedMixed.length :=
  RenderObjects_ordered renderEnvOk bindingFoo filesSortedMixed renderedOf
    (by
      refine List.pairwise_cons.mpr ⟨?_, List.pairwise_cons.mpr ⟨?_, List.pairwise_singleton _ _⟩⟩
      · intro b hb
        rcases List.mem_cons.mp hb with rfl | hb
        · exact String.lt_iff_toList_lt.mpr (by decide)
        · rcases List.mem_singleton.mp hb with rfl
          exact String.lt_iff_toList_lt.mpr (by decide)
      · intro b hb
        rcases List.mem_singleton.mp hb with rfl
        exact String.lt_iff_toList_lt.mpr (by decide))
    (by decide) (by intro p hp; fin_cases hp <;> rfl)

/-- A rendering environment in which every file exists and evaluates, but
only the first document of filesWithBad parses; the second one is malformed
once rendered. -/
def renderEnvBadParse : RenderEnv :=
  { fileContent := fun p => some p,
    executeTemplate := fun tpl _ => some tpl,
    parseDocument := fun _ rendered =>
      if rendered = "testdata/manifests/a.yaml" then
        some { Kind := "TestObj", Namespace := "default", Name := rendered, Fields := [] }
      else none }

/-- A document list whose first document renders successfully and whose
second one fails to parse. -/
def filesWithBad : List String := ["testdata/manifests/a.yaml", "testdata/badManifests/bad.yaml"]

/-- Witness for claim C4: with the first document rendering successfully and
the second failing to parse, the whole call returns an error and no object
sequence. -/
theorem RenderObjects_all_or_nothing_witness :
    ∃ e, RenderObjects renderEnvBadParse filesWithBad bindingFoo = Except.error e :=
  RenderObjects_all_or_nothing renderEnvBadParse bindingFoo filesWithBad
    ⟨"testdata/badManifests/bad.yaml", by simp [filesWithBad],
      RenderError.ParseFailure "testdata/badManifests/bad.yaml", rfl⟩

def stateWatchX : State :=
  { name := "state-x", description := "declares DaemonSet first", syncStatus := SyncStateReady,
    syncErr := none,
    watchSources := [("DaemonSet", { typeName := "apps/v1.DaemonSet" })] }

def stateWatchY : State :=
  { name := "state-y", description := "declares DaemonSet again and ConfigMap",
    syncStatus := SyncStateReady, syncErr := none,
    watchSources := [("DaemonSet", { typeName := "other.DaemonSet" }),
                     ("ConfigMap", { typeName := "v1.ConfigMap" })] }

/-- Witness for claim C8: with two states both declaring DaemonSet with
different descriptors, the collected map holds the descriptor of the state
earliest in the configured order. -/
theorem stateManager_GetWatchSources_dedup_first_wins_witness :
    ("DaemonSet", ({ typeName := "apps/v1.DaemonSet" } : Kind)) ∈
      buildKindMap [] [stateWatchX, stateWatchY] :=
  ((stateManager_GetWatchSources_dedup_first_wins [stateWatchX, stateWatchY]).2.1
    "DaemonSet" { typeName := "apps/v1.DaemonSet" }).mpr rfl
